import Mathlib

/-!
Verification of the GitGlow LED-matrix abstraction (`IMatrixWriter.h`,
`IPlatform.h`) against its natural-language specification.

The concrete code in the repository is the `Color` value type (packing to and
from a 32-bit integer), the `MatrixDimensions` value type, and a set of pure
virtual interface declarations.  The behavioural parts that the interface only
declares (pixel buffer, coordinate mapping, brightness/gamma pipeline, frame
state machine) are modelled from the specification; such definitions carry a
doc comment starting with `Modelled from the spec:`.
-/

namespace GitGlow

/-- RGB color structure from `IMatrixWriter.h`: three 8-bit unsigned channels
`r`, `g`, `b`, modelled as natural numbers. -/
structure Color where
  r : Nat
  g : Nat
  b : Nat
  deriving DecidableEq

/-- A `Color` is well formed when each channel fits in 8 bits, as the C++
`uint8_t` fields guarantee. -/
def Color.WellFormed (c : Color) : Prop :=
  c.r < 256 ∧ c.g < 256 ∧ c.b < 256

instance (c : Color) : Decidable c.WellFormed := by
  unfold Color.WellFormed
  infer_instance

/-- `Color::to32bit` from the source: `((uint32_t)r << 16) | ((uint32_t)g << 8) | b`. -/
def Color.to32bit (c : Color) : Nat :=
  (c.r <<< 16) ||| (c.g <<< 8) ||| c.b

/-- `Color::from32bit` from the source:
`Color((color >> 16) & 0xFF, (color >> 8) & 0xFF, color & 0xFF)`. -/
def Color.from32bit (color : Nat) : Color :=
  ⟨(color >>> 16) &&& 0xFF, (color >>> 8) &&& 0xFF, color &&& 0xFF⟩

/-- Arithmetic form of `Color.to32bit` for well-formed colors. -/
theorem Color.to32bit_eq (c : Color) (h : c.WellFormed) :
    c.to32bit = 65536 * c.r + 256 * c.g + c.b := by
  obtain ⟨hr, hg, hb⟩ := h
  have hb8 : c.b < 2 ^ 8 := by omega
  have hgb : 2 ^ 8 * c.g + c.b < 2 ^ 16 := by omega
  unfold Color.to32bit
  rw [Nat.shiftLeft_eq, Nat.shiftLeft_eq, Nat.or_assoc]
  rw [show c.g * 2 ^ 8 = 2 ^ 8 * c.g from Nat.mul_comm _ _]
  rw [show c.r * 2 ^ 16 = 2 ^ 16 * c.r from Nat.mul_comm _ _]
  rw [← Nat.mul_add_lt_is_or hb8 c.g]
  rw [← Nat.mul_add_lt_is_or hgb c.r]
  omega

/-- Arithmetic form of `Color.from32bit`. -/
theorem Color.from32bit_eq (v : Nat) :
    Color.from32bit v = ⟨v / 65536 % 256, v / 256 % 256, v % 256⟩ := by
  unfold Color.from32bit
  have h16 : v >>> 16 = v / 65536 := by
    rw [Nat.shiftRight_eq_div_pow]
  have h8 : v >>> 8 = v / 256 := by
    rw [Nat.shiftRight_eq_div_pow]
  have hmask : ∀ w : Nat, w &&& 0xFF = w % 256 := by
    intro w
    have := Nat.and_pow_two_sub_one_eq_mod w 8
    norm_num at this
    exact this
  rw [h16, h8, hmask, hmask, hmask]

/-- Claim C1: packing and unpacking a color is a lossless round-trip — for
every well-formed `Color` `c`, `from32bit (to32bit c) = c`, and for every
24-bit value `v`, `to32bit (from32bit v) = v`. -/
theorem c1_pack_unpack_roundtrip (c : Color) (hc : c.WellFormed)
    (v : Nat) (hv : v < 2 ^ 24) :
    Color.from32bit c.to32bit = c ∧ (Color.from32bit v).to32bit = v := by
  obtain ⟨hr, hg, hb⟩ := hc
  constructor
  · rw [Color.to32bit_eq c ⟨hr, hg, hb⟩, Color.from32bit_eq]
    cases c with
    | mk r g b =>
      simp only [Color.mk.injEq]
      simp only at hr hg hb
      refine ⟨?_, ?_, ?_⟩ <;> omega
  · have hwf : (Color.from32bit v).WellFormed := by
      rw [Color.from32bit_eq]
      exact ⟨Nat.mod_lt _ (by norm_num), Nat.mod_lt _ (by norm_num),
        Nat.mod_lt _ (by norm_num)⟩
    rw [Color.to32bit_eq _ hwf, Color.from32bit_eq]
    simp only
    have hv' : v < 16777216 := by omega
    omega

/-- Witness for C1 at a concrete color and packed value. -/
theorem c1_pack_unpack_roundtrip_witness :
    Color.from32bit (Color.to32bit ⟨3, 200, 77⟩) = ⟨3, 200, 77⟩ ∧
      (Color.from32bit 11259375).to32bit = 11259375 :=
  c1_pack_unpack_roundtrip ⟨3, 200, 77⟩ (by decide) 11259375 (by norm_num)

/-- Claim C10: `from32bit` is total on 32-bit inputs and depends only on the
low 24 bits; the result always has each channel in `[0, 255]`. -/
theorem c10_from32bit_low24 (v : Nat) (hv : v < 2 ^ 32) :
    Color.from32bit v = Color.from32bit (v &&& 0xFFFFFF) ∧
      (Color.from32bit v).WellFormed := by
  have hmask : v &&& 0xFFFFFF = v % 16777216 := by
    have := Nat.and_pow_two_sub_one_eq_mod v 24
    norm_num at this
    exact this
  constructor
  · rw [Color.from32bit_eq, hmask, Color.from32bit_eq]
    simp only [Color.mk.injEq]
    refine ⟨?_, ?_, ?_⟩ <;> omega
  · rw [Color.from32bit_eq]
    exact ⟨Nat.mod_lt _ (by norm_num), Nat.mod_lt _ (by norm_num),
      Nat.mod_lt _ (by norm_num)⟩

/-- Witness for C10 at a concrete 32-bit value with a nonzero high byte. -/
theorem c10_from32bit_low24_witness :
    Color.from32bit 305419896 = Color.from32bit (305419896 &&& 0xFFFFFF) ∧
      (Color.from32bit 305419896).WellFormed :=
  c10_from32bit_low24 305419896 (by norm_num)

/-- Matrix dimensions structure from `IMatrixWriter.h`: `int` fields `width`,
`height`, `totalPixels`, modelled as integers. -/
structure MatrixDimensions where
  width : Int
  height : Int
  totalPixels : Int
  deriving DecidableEq

/-- The `MatrixDimensions(int w, int h)` constructor from the source:
`width(w), height(h), totalPixels(w * h)`.  It performs no validation. -/
def MatrixDimensions.make (w h : Int) : MatrixDimensions :=
  ⟨w, h, w * h⟩

/-- Counterexample to C6 as stated: the constructor accepts non-positive
dimensions, so a `MatrixDimensions` value with `width = 0` exists. -/
theorem c6_dimensions_invariant_counterexample :
    ¬ (0 < (MatrixDimensions.make 0 5).width ∧
        0 < (MatrixDimensions.make 0 5).height) := by
  decide

/-- Claim C6 (amended): the constructor records `width = w`, `height = h` and
`totalPixels = width * height`; it does not enforce positivity, so the
positivity invariant holds exactly when the constructor arguments are
positive.  In the embedding the fields never change after construction. -/
theorem c6_dimensions_invariant (w h : Int) (hw : 0 < w) (hh : 0 < h) :
    (MatrixDimensions.make w h).width = w ∧
      (MatrixDimensions.make w h).height = h ∧
      (MatrixDimensions.make w h).totalPixels =
        (MatrixDimensions.make w h).width * (MatrixDimensions.make w h).height ∧
      0 < (MatrixDimensions.make w h).width ∧
      0 < (MatrixDimensions.make w h).height :=
  ⟨rfl, rfl, rfl, hw, hh⟩

/-- Witness for the amended C6 at concrete positive dimensions. -/
theorem c6_dimensions_invariant_witness :
    (MatrixDimensions.make 10 5).width = 10 ∧
      (MatrixDimensions.make 10 5).height = 5 ∧
      (MatrixDimensions.make 10 5).totalPixels =
        (MatrixDimensions.make 10 5).width * (MatrixDimensions.make 10 5).height ∧
      0 < (MatrixDimensions.make 10 5).width ∧
      0 < (MatrixDimensions.make 10 5).height :=
  c6_dimensions_invariant 10 5 (by decide) (by decide)

/-- Modelled from the spec: the `ColorOrder` enum
`{RGB, GRB, BGR, RBG, GBR, BRG}` describing physical channel wiring; the
source only declares `setColorOrder(order)`. -/
inductive ColorOrder where
  | RGB | GRB | BGR | RBG | GBR | BRG
  deriving DecidableEq

/-- Modelled from the spec: the frame state machine
`Idle → (startFrame) → Buffering → (endFrame → flush) → Idle`; the source only
declares `startFrame()` and `endFrame()`. -/
inductive FrameState where
  | Idle | Buffering
  deriving DecidableEq

/-- Modelled from the spec: the state of an `AddressableMatrix` — dimension
metadata, the logical RGB `PixelBuffer`, the brightness scale factor, the
gamma-correction toggle, the color order and the frame state.  The source
declares the operations on this state only as pure virtual members of
`IMatrixWriter`. -/
structure MatrixState where
  dims : MatrixDimensions
  buffer : List Color
  brightness : Nat
  gammaEnabled : Bool
  order : ColorOrder
  frame : FrameState

/-- Modelled from the spec: a matrix is initialized when `init` succeeded —
positive dimensions, `totalPixels = width * height`, and a buffer allocated to
exactly `totalPixels` entries. -/
def Initialized (s : MatrixState) : Prop :=
  0 < s.dims.width ∧ 0 < s.dims.height ∧
    s.dims.totalPixels = s.dims.width * s.dims.height ∧
    s.buffer.length = s.dims.totalPixels.toNat

instance (s : MatrixState) : Decidable (Initialized s) := by
  unfold Initialized
  infer_instance

/-- Modelled from the spec: `isValidCoord(x, y)` is `0 ≤ x < W && 0 ≤ y < H`;
the source declares it as a pure virtual member. -/
def isValidCoord (s : MatrixState) (x y : Int) : Prop :=
  0 ≤ x ∧ x < s.dims.width ∧ 0 ≤ y ∧ y < s.dims.height

instance (s : MatrixState) (x y : Int) : Decidable (isValidCoord s x y) := by
  unfold isValidCoord
  infer_instance

/-- Modelled from the spec: `coordsToIndex(x, y)` with the row-major default
layout `index = y * W + x`; the source declares the member but fixes no
layout, and the spec requires row-major as the default. -/
def coordsToIndex (s : MatrixState) (x y : Int) : Int :=
  y * s.dims.width + x

/-- Modelled from the spec: `indexToCoords(index)`, the inverse of the
row-major `coordsToIndex`: `(index % W, index / W)`. -/
def indexToCoords (s : MatrixState) (index : Int) : Int × Int :=
  (index % s.dims.width, index / s.dims.width)

/-- Modelled from the spec: coordinate-based `setPixel(x, y, color)` — writes
the buffer at `coordsToIndex(x, y)`, a no-op when `(x, y)` is out of range. -/
def setPixel (s : MatrixState) (x y : Int) (c : Color) : MatrixState :=
  if isValidCoord s x y then
    { s with buffer := s.buffer.set (coordsToIndex s x y).toNat c }
  else
    s

/-- Modelled from the spec: index-based `setPixel(index, color)` — a no-op
when `index ∉ [0, totalPixels)`. -/
def setPixelByIndex (s : MatrixState) (index : Int) (c : Color) : MatrixState :=
  if 0 ≤ index ∧ index < s.dims.totalPixels then
    { s with buffer := s.buffer.set index.toNat c }
  else
    s

/-- Modelled from the spec: coordinate-based `getPixel(x, y)` — returns the
buffer entry at `coordsToIndex(x, y)`, or the default `Color(0, 0, 0)` on
out-of-range access. -/
def getPixel (s : MatrixState) (x y : Int) : Color :=
  if isValidCoord s x y then
    s.buffer.getD (coordsToIndex s x y).toNat ⟨0, 0, 0⟩
  else
    ⟨0, 0, 0⟩

/-- Modelled from the spec: index-based `getPixel(index)` — returns the buffer
entry, or the default `Color(0, 0, 0)` on out-of-range access. -/
def getPixelByIndex (s : MatrixState) (index : Int) : Color :=
  if 0 ≤ index ∧ index < s.dims.totalPixels then
    s.buffer.getD index.toNat ⟨0, 0, 0⟩
  else
    ⟨0, 0, 0⟩

/-- Claim C2: for an initialized matrix, `coordsToIndex` and `indexToCoords`
are exact mutual inverses on valid coordinates and valid indices, and each
maps its valid range into the other's — the mapping is a bijection. -/
theorem c2_coords_index_bijection (s : MatrixState) (x y index : Int)
    (hs : Initialized s) (hxy : isValidCoord s x y)
    (hi : 0 ≤ index ∧ index < s.dims.totalPixels) :
    indexToCoords s (coordsToIndex s x y) = (x, y) ∧
      0 ≤ coordsToIndex s x y ∧
      coordsToIndex s x y < s.dims.totalPixels ∧
      coordsToIndex s (indexToCoords s index).1 (indexToCoords s index).2
        = index ∧
      isValidCoord s (indexToCoords s index).1 (indexToCoords s index).2 := by
  obtain ⟨hW, hH, htot, _⟩ := hs
  obtain ⟨hx0, hxW, hy0, hyH⟩ := hxy
  obtain ⟨hi0, hiT⟩ := hi
  have hWne : s.dims.width ≠ 0 := ne_of_gt hW
  have hcomm : s.dims.totalPixels = s.dims.height * s.dims.width := by
    rw [htot, mul_comm]
  refine ⟨?_, ?_, ?_, ?_, ?_, ?_, ?_, ?_⟩
  · unfold indexToCoords coordsToIndex
    rw [Int.add_comm, Int.add_mul_emod_self, Int.add_mul_ediv_right x y hWne,
      Int.emod_eq_of_lt hx0 hxW, Int.ediv_eq_zero_of_lt hx0 hxW, Int.zero_add]
  · unfold coordsToIndex
    have : 0 ≤ y * s.dims.width := mul_nonneg hy0 (le_of_lt hW)
    linarith
  · unfold coordsToIndex
    have key : y * s.dims.width ≤ (s.dims.height - 1) * s.dims.width :=
      mul_le_mul_of_nonneg_right (by omega) (by omega)
    have expand : (s.dims.height - 1) * s.dims.width
        = s.dims.height * s.dims.width - s.dims.width := by ring
    rw [hcomm]
    linarith
  · unfold coordsToIndex indexToCoords
    rw [mul_comm]
    exact Int.ediv_add_emod index s.dims.width
  · exact Int.emod_nonneg index hWne
  · exact Int.emod_lt_of_pos index hW
  · exact Int.ediv_nonneg hi0 (le_of_lt hW)
  · show index / s.dims.width < s.dims.height
    rw [Int.ediv_lt_iff_lt_mul hW]
    rw [hcomm] at hiT
    exact hiT

/-- Witness for C2 on a concrete initialized 2×3 matrix at `(x, y) = (1, 2)`
and `index = 4`. -/
theorem c2_coords_index_bijection_witness :
    indexToCoords
        ⟨MatrixDimensions.make 2 3, List.replicate 6 ⟨0, 0, 0⟩, 255, false,
          ColorOrder.RGB, FrameState.Idle⟩
        (coordsToIndex
          ⟨MatrixDimensions.make 2 3, List.replicate 6 ⟨0, 0, 0⟩, 255, false,
            ColorOrder.RGB, FrameState.Idle⟩ 1 2) = (1, 2) ∧
      0 ≤ coordsToIndex
          ⟨MatrixDimensions.make 2 3, List.replicate 6 ⟨0, 0, 0⟩, 255, false,
            ColorOrder.RGB, FrameState.Idle⟩ 1 2 ∧
      coordsToIndex
          ⟨MatrixDimensions.make 2 3, List.replicate 6 ⟨0, 0, 0⟩, 255, false,
            ColorOrder.RGB, FrameState.Idle⟩ 1 2
        < (MatrixDimensions.make 2 3).totalPixels ∧
      coordsToIndex
          ⟨MatrixDimensions.make 2 3, List.replicate 6 ⟨0, 0, 0⟩, 255, false,
            ColorOrder.RGB, FrameState.Idle⟩
          (indexToCoords
            ⟨MatrixDimensions.make 2 3, List.replicate 6 ⟨0, 0, 0⟩, 255, false,
              ColorOrder.RGB, FrameState.Idle⟩ 4).1
          (indexToCoords
            ⟨MatrixDimensions.make 2 3, List.replicate 6 ⟨0, 0, 0⟩, 255, false,
              ColorOrder.RGB, FrameState.Idle⟩ 4).2 = 4 ∧
      isValidCoord
        ⟨MatrixDimensions.make 2 3, List.replicate 6 ⟨0, 0, 0⟩, 255, false,
          ColorOrder.RGB, FrameState.Idle⟩
        (indexToCoords
          ⟨MatrixDimensions.make 2 3, List.replicate 6 ⟨0, 0, 0⟩, 255, false,
            ColorOrder.RGB, FrameState.Idle⟩ 4).1
        (indexToCoords
          ⟨MatrixDimensions.make 2 3, List.replicate 6 ⟨0, 0, 0⟩, 255, false,
            ColorOrder.RGB, FrameState.Idle⟩ 4).2 :=
  c2_coords_index_bijection _ 1 2 4 (by decide) (by decide) (by decide)

/-- For an initialized matrix, a valid coordinate maps to an index inside the
buffer. -/
theorem coordsToIndex_toNat_lt (s : MatrixState) (x y : Int)
    (hs : Initialized s) (hv : isValidCoord s x y) :
    (coordsToIndex s x y).toNat < s.buffer.length := by
  obtain ⟨hW, hH, htot, hlen⟩ := hs
  obtain ⟨hx0, hxW, hy0, hyH⟩ := hv
  have h0 : 0 ≤ coordsToIndex s x y := by
    unfold coordsToIndex
    have : 0 ≤ y * s.dims.width := mul_nonneg hy0 (le_of_lt hW)
    linarith
  have hlt : coordsToIndex s x y < s.dims.totalPixels := by
    unfold coordsToIndex
    have key : y * s.dims.width ≤ (s.dims.height - 1) * s.dims.width :=
      mul_le_mul_of_nonneg_right (by omega) (by omega)
    have expand : (s.dims.height - 1) * s.dims.width
        = s.dims.height * s.dims.width - s.dims.width := by ring
    have hcomm : s.dims.totalPixels = s.dims.height * s.dims.width := by
      rw [htot, mul_comm]
    rw [hcomm]
    linarith
  rw [hlen]
  omega

/-- Claim C3: on an initialized matrix, `setPixel(x, y, c)` followed by
`getPixel(x, y)` returns exactly `c`, for every in-bounds coordinate and every
color, independently of the brightness, gamma and color-order settings. -/
theorem c3_set_get_exact (s : MatrixState) (x y : Int) (c : Color)
    (hs : Initialized s) (hv : isValidCoord s x y) :
    getPixel (setPixel s x y c) x y = c := by
  have hidx := coordsToIndex_toNat_lt s x y hs hv
  obtain ⟨d, buf, br, g, o, f⟩ := s
  simp only [setPixel, getPixel, isValidCoord, coordsToIndex] at hv hidx ⊢
  rw [if_pos hv, if_pos hv]
  rw [List.getD_eq_getElem?_getD, List.getElem?_set_self hidx]
  rfl

/-- Witness for C3: writing `(10, 20, 30)` at `(1, 2)` on an initialized 2×3
matrix and reading it back returns exactly `(10, 20, 30)`. -/
theorem c3_set_get_exact_witness :
    getPixel
        (setPixel
          ⟨MatrixDimensions.make 2 3, List.replicate 6 ⟨0, 0, 0⟩, 17, true,
            ColorOrder.GRB, FrameState.Idle⟩ 1 2 ⟨10, 20, 30⟩)
        1 2 = ⟨10, 20, 30⟩ :=
  c3_set_get_exact _ 1 2 ⟨10, 20, 30⟩ (by decide) (by decide)

/-- Claim C7: on an initialized matrix, out-of-range reads return the default
`Color(0, 0, 0)`, both for coordinates and for indices. -/
theorem c7_get_out_of_range_default (s : MatrixState) (x y index : Int)
    (hs : Initialized s) (hxy : ¬ isValidCoord s x y)
    (hidx : index < 0 ∨ s.dims.totalPixels ≤ index) :
    getPixel s x y = ⟨0, 0, 0⟩ ∧ getPixelByIndex s index = ⟨0, 0, 0⟩ := by
  constructor
  · unfold getPixel
    rw [if_neg hxy]
  · unfold getPixelByIndex
    rw [if_neg (by omega)]

/-- Witness for C7: reading `(5, 0)` and index `9` on an initialized 2×3
matrix returns the default color. -/
theorem c7_get_out_of_range_default_witness :
    getPixel
        ⟨MatrixDimensions.make 2 3, List.replicate 6 ⟨7, 7, 7⟩, 255, false,
          ColorOrder.RGB, FrameState.Idle⟩ 5 0 = ⟨0, 0, 0⟩ ∧
      getPixelByIndex
        ⟨MatrixDimensions.make 2 3, List.replicate 6 ⟨7, 7, 7⟩, 255, false,
          ColorOrder.RGB, FrameState.Idle⟩ 9 = ⟨0, 0, 0⟩ :=
  c7_get_out_of_range_default _ 5 0 9 (by decide) (by decide) (by decide)

/-- Claim C8: on an initialized matrix, out-of-range writes (by coordinate or
by index) leave the state unchanged, so every in-range read returns the same
color before and after, and the operation completes. -/
theorem c8_set_out_of_range_noop (s : MatrixState) (x y index : Int)
    (c : Color) (hs : Initialized s) (hxy : ¬ isValidCoord s x y)
    (hidx : index < 0 ∨ s.dims.totalPixels ≤ index) :
    setPixel s x y c = s ∧ setPixelByIndex s index c = s ∧
      (∀ x2 y2 : Int, isValidCoord s x2 y2 →
        getPixel (setPixel s x y c) x2 y2 = getPixel s x2 y2) ∧
      (∀ x2 y2 : Int, isValidCoord s x2 y2 →
        getPixel (setPixelByIndex s index c) x2 y2 = getPixel s x2 y2) := by
  have h1 : setPixel s x y c = s := by
    unfold setPixel
    rw [if_neg hxy]
  have h2 : setPixelByIndex s index c = s := by
    unfold setPixelByIndex
    rw [if_neg (by omega)]
  exact ⟨h1, h2, fun x2 y2 _ => by rw [h1], fun x2 y2 _ => by rw [h2]⟩

/-- Witness for C8: writing at `(-1, 0)` and at index `6` on an initialized
2×3 matrix changes nothing. -/
theorem c8_set_out_of_range_noop_witness :
    setPixel
        ⟨MatrixDimensions.make 2 3, List.replicate 6 ⟨7, 7, 7⟩, 255, false,
          ColorOrder.RGB, FrameState.Idle⟩ (-1) 0 ⟨9, 9, 9⟩
      = ⟨MatrixDimensions.make 2 3, List.replicate 6 ⟨7, 7, 7⟩, 255, false,
          ColorOrder.RGB, FrameState.Idle⟩ ∧
    setPixelByIndex
        ⟨MatrixDimensions.make 2 3, List.replicate 6 ⟨7, 7, 7⟩, 255, false,
          ColorOrder.RGB, FrameState.Idle⟩ 6 ⟨9, 9, 9⟩
      = ⟨MatrixDimensions.make 2 3, List.replicate 6 ⟨7, 7, 7⟩, 255, false,
          ColorOrder.RGB, FrameState.Idle⟩ ∧
    (∀ x2 y2 : Int,
      isValidCoord
        ⟨MatrixDimensions.make 2 3, List.replicate 6 ⟨7, 7, 7⟩, 255, false,
          ColorOrder.RGB, FrameState.Idle⟩ x2 y2 →
      getPixel
          (setPixel
            ⟨MatrixDimensions.make 2 3, List.replicate 6 ⟨7, 7, 7⟩, 255, false,
              ColorOrder.RGB, FrameState.Idle⟩ (-1) 0 ⟨9, 9, 9⟩) x2 y2
        = getPixel
            ⟨MatrixDimensions.make 2 3, List.replicate 6 ⟨7, 7, 7⟩, 255, false,
              ColorOrder.RGB, FrameState.Idle⟩ x2 y2) ∧
    (∀ x2 y2 : Int,
      isValidCoord
        ⟨MatrixDimensions.make 2 3, List.replicate 6 ⟨7, 7, 7⟩, 255, false,
          ColorOrder.RGB, FrameState.Idle⟩ x2 y2 →
      getPixel
          (setPixelByIndex
            ⟨MatrixDimensions.make 2 3, List.replicate 6 ⟨7, 7, 7⟩, 255, false,
              ColorOrder.RGB, FrameState.Idle⟩ 6 ⟨9, 9, 9⟩) x2 y2
        = getPixel
            ⟨MatrixDimensions.make 2 3, List.replicate 6 ⟨7, 7, 7⟩, 255, false,
              ColorOrder.RGB, FrameState.Idle⟩ x2 y2) :=
  c8_set_out_of_range_noop _ (-1) 0 6 ⟨9, 9, 9⟩ (by decide) (by decide)
    (by decide)

/-- Modelled from the spec: per-pixel brightness scaling applied at `show()`
time, `scaled = channel * brightness / 255`; the source only declares
`setBrightness`/`show`. -/
def scaleChannel (brightness channel : Nat) : Nat :=
  channel * brightness / 255

/-- Modelled from the spec: gamma correction applied at `show()` time when
enabled, `corrected = round(255 * (scaled/255)^gamma)` with the fixed gamma
exponent 2.8; the source only declares `setGammaCorrection`. -/
noncomputable def gammaCorrect (scaled : Nat) : Nat :=
  (round ((255 : ℝ) * ((scaled : ℝ) / 255) ^ (2.8 : ℝ))).toNat

/-- Modelled from the spec: the gamma step of `show()` runs only when the
toggle is enabled, otherwise it is the identity. -/
noncomputable def applyGamma (enabled : Bool) (scaled : Nat) : Nat :=
  if enabled then gammaCorrect scaled else scaled

/-- Modelled from the spec: channel reordering per the configured
`ColorOrder`, applied only at flush time. -/
def applyOrder (o : ColorOrder) (c : Color) : Color :=
  match o with
  | ColorOrder.RGB => ⟨c.r, c.g, c.b⟩
  | ColorOrder.GRB => ⟨c.g, c.r, c.b⟩
  | ColorOrder.BGR => ⟨c.b, c.g, c.r⟩
  | ColorOrder.RBG => ⟨c.r, c.b, c.g⟩
  | ColorOrder.GBR => ⟨c.g, c.b, c.r⟩
  | ColorOrder.BRG => ⟨c.b, c.r, c.g⟩

/-- Modelled from the spec: the full `show()`-time transform of one stored
pixel — brightness scaling, then gamma correction if enabled, then channel
reordering. -/
noncomputable def renderPixel (brightness : Nat) (gammaEnabled : Bool)
    (o : ColorOrder) (c : Color) : Color :=
  applyOrder o
    ⟨applyGamma gammaEnabled (scaleChannel brightness c.r),
      applyGamma gammaEnabled (scaleChannel brightness c.g),
      applyGamma gammaEnabled (scaleChannel brightness c.b)⟩

/-- Modelled from the spec: the physical byte stream `show()` transmits — the
stored buffer with the per-pixel transform applied. -/
noncomputable def renderBuffer (s : MatrixState) : List Color :=
  s.buffer.map (renderPixel s.brightness s.gammaEnabled s.order)

/-- The spec's gamma curve is monotone. -/
theorem gammaCorrect_mono (a b : Nat) (h : a ≤ b) :
    gammaCorrect a ≤ gammaCorrect b := by
  unfold gammaCorrect
  have hinner : ((a : ℝ) / 255) ^ (2.8 : ℝ) ≤ ((b : ℝ) / 255) ^ (2.8 : ℝ) := by
    apply Real.rpow_le_rpow
    · positivity
    · apply div_le_div_of_nonneg_right ?_ (by norm_num)
      exact_mod_cast h
    · norm_num
  have hmul : (255 : ℝ) * ((a : ℝ) / 255) ^ (2.8 : ℝ)
      ≤ (255 : ℝ) * ((b : ℝ) / 255) ^ (2.8 : ℝ) := by
    apply mul_le_mul_of_nonneg_left hinner (by norm_num)
  have hround : round ((255 : ℝ) * ((a : ℝ) / 255) ^ (2.8 : ℝ))
      ≤ round ((255 : ℝ) * ((b : ℝ) / 255) ^ (2.8 : ℝ)) := by
    rw [round_eq, round_eq]
    exact Int.floor_le_floor (by linarith)
  omega

/-- The brightness-then-gamma channel pipeline is monotone in brightness. -/
theorem channel_pipeline_mono (g : Bool) (b1 b2 ch : Nat) (h : b1 ≤ b2) :
    applyGamma g (scaleChannel b1 ch) ≤ applyGamma g (scaleChannel b2 ch) := by
  have hscale : scaleChannel b1 ch ≤ scaleChannel b2 ch := by
    unfold scaleChannel
    exact Nat.div_le_div_right (Nat.mul_le_mul (Nat.le_refl ch) h)
  unfold applyGamma
  cases g with
  | false => simpa using hscale
  | true => simpa using gammaCorrect_mono _ _ hscale

/-- Claim C9: brightness scaling at `show()` is monotonic — with gamma and
color order held fixed, for brightness `b1 < b2` and a stored color with
nonzero channels, each flushed channel value at `b1` is at most the
corresponding value at `b2`. -/
theorem c9_brightness_monotonic (b1 b2 : Nat) (c : Color) (g : Bool)
    (o : ColorOrder) (hb : b1 < b2)
    (hc : 0 < c.r ∧ 0 < c.g ∧ 0 < c.b) :
    (renderPixel b1 g o c).r ≤ (renderPixel b2 g o c).r ∧
      (renderPixel b1 g o c).g ≤ (renderPixel b2 g o c).g ∧
      (renderPixel b1 g o c).b ≤ (renderPixel b2 g o c).b := by
  have hr := channel_pipeline_mono g b1 b2 c.r (le_of_lt hb)
  have hg := channel_pipeline_mono g b1 b2 c.g (le_of_lt hb)
  have hb2 := channel_pipeline_mono g b1 b2 c.b (le_of_lt hb)
  cases o <;>
    exact ⟨by first | exact hr | exact hg | exact hb2,
      by first | exact hr | exact hg | exact hb2,
      by first | exact hr | exact hg | exact hb2⟩

/-- Witness for C9 at brightness 64 versus 200 on the color `(255, 128, 1)`
with gamma enabled and GRB order. -/
theorem c9_brightness_monotonic_witness :
    (renderPixel 64 true ColorOrder.GRB ⟨255, 128, 1⟩).r
        ≤ (renderPixel 200 true ColorOrder.GRB ⟨255, 128, 1⟩).r ∧
      (renderPixel 64 true ColorOrder.GRB ⟨255, 128, 1⟩).g
        ≤ (renderPixel 200 true ColorOrder.GRB ⟨255, 128, 1⟩).g ∧
      (renderPixel 64 true ColorOrder.GRB ⟨255, 128, 1⟩).b
        ≤ (renderPixel 200 true ColorOrder.GRB ⟨255, 128, 1⟩).b :=
  c9_brightness_monotonic 64 200 ⟨255, 128, 1⟩ true ColorOrder.GRB
    (by decide) (by decide)

/-- Modelled from the spec: `show()` with the transmit collaborator's outcome
as a parameter.  Outside a `startFrame`/`endFrame` bracket it flushes — the
intended payload is `renderBuffer` — and reports the transport's success or
failure, returning to `Idle`; inside a bracket the flush is deferred and no
transmit happens.  The source only declares `show()`. -/
noncomputable def showMatrix (s : MatrixState) (transmitOk : Bool) :
    Bool × MatrixState × List (List Color) :=
  if s.frame = FrameState.Buffering then
    (true, s, [])
  else
    (transmitOk, { s with frame := FrameState.Idle }, [renderBuffer s])

/-- Claim C4: if the transport fails during `show()`, the failure is reported,
the logical pixel buffer is unchanged by the failed call, and retrying
`show()` from the resulting state is the same call with the same intended
transmission — retry is idempotent. -/
theorem c4_transport_failure_safe (s : MatrixState)
    (hf : s.frame = FrameState.Idle) :
    (showMatrix s false).1 = false ∧
      (showMatrix s false).2.1.buffer = s.buffer ∧
      (showMatrix s false).2.2 = [renderBuffer s] ∧
      (showMatrix s false).2.1 = s ∧
      (∀ ok : Bool, showMatrix (showMatrix s false).2.1 ok = showMatrix s ok) := by
  obtain ⟨d, buf, br, g, o, f⟩ := s
  simp only at hf
  subst hf
  have h1 : showMatrix ⟨d, buf, br, g, o, FrameState.Idle⟩ false
      = (false, ⟨d, buf, br, g, o, FrameState.Idle⟩,
          [renderBuffer ⟨d, buf, br, g, o, FrameState.Idle⟩]) := rfl
  refine ⟨?_, ?_, ?_, ?_, ?_⟩
  · rw [h1]
  · rw [h1]
  · rw [h1]
  · rw [h1]
  · intro ok
    rw [h1]

/-- Witness for C4 on a concrete idle 2×3 matrix. -/
theorem c4_transport_failure_safe_witness :
    (showMatrix
        ⟨MatrixDimensions.make 2 3, List.replicate 6 ⟨7, 7, 7⟩, 255, false,
          ColorOrder.RGB, FrameState.Idle⟩ false).1 = false ∧
      (showMatrix
          ⟨MatrixDimensions.make 2 3, List.replicate 6 ⟨7, 7, 7⟩, 255, false,
            ColorOrder.RGB, FrameState.Idle⟩ false).2.1.buffer
        = List.replicate 6 ⟨7, 7, 7⟩ ∧
      (showMatrix
          ⟨MatrixDimensions.make 2 3, List.replicate 6 ⟨7, 7, 7⟩, 255, false,
            ColorOrder.RGB, FrameState.Idle⟩ false).2.2
        = [renderBuffer
            ⟨MatrixDimensions.make 2 3, List.replicate 6 ⟨7, 7, 7⟩, 255, false,
              ColorOrder.RGB, FrameState.Idle⟩] ∧
      (showMatrix
          ⟨MatrixDimensions.make 2 3, List.replicate 6 ⟨7, 7, 7⟩, 255, false,
            ColorOrder.RGB, FrameState.Idle⟩ false).2.1
        = ⟨MatrixDimensions.make 2 3, List.replicate 6 ⟨7, 7, 7⟩, 255, false,
            ColorOrder.RGB, FrameState.Idle⟩ ∧
      (∀ ok : Bool,
        showMatrix
            (showMatrix
              ⟨MatrixDimensions.make 2 3, List.replicate 6 ⟨7, 7, 7⟩, 255,
                false, ColorOrder.RGB, FrameState.Idle⟩ false).2.1 ok
          = showMatrix
              ⟨MatrixDimensions.make 2 3, List.replicate 6 ⟨7, 7, 7⟩, 255,
                false, ColorOrder.RGB, FrameState.Idle⟩ ok) :=
  c4_transport_failure_safe _ rfl

/-- Modelled from the spec: the operations that drive the frame state
machine — pixel writes, `startFrame`, `endFrame` and `show`. -/
inductive MatrixOp where
  | setPixelOp (x y : Int) (c : Color)
  | startFrameOp
  | endFrameOp
  | showOp

/-- Modelled from the spec: one step of the frame state machine.  `setPixel`
only mutates the buffer; `startFrame` enters `Buffering` (a no-op when
already `Buffering`); `endFrame` flushes and returns to `Idle` (a no-op when
`Idle`); `show` flushes immediately when `Idle` but is deferred while
`Buffering`.  The second component is the frame transmitted by this step, if
any. -/
noncomputable def stepOp (s : MatrixState) (op : MatrixOp) :
    MatrixState × Option (List Color) :=
  match op with
  | MatrixOp.setPixelOp x y c => (setPixel s x y c, none)
  | MatrixOp.startFrameOp =>
      if s.frame = FrameState.Buffering then (s, none)
      else ({ s with frame := FrameState.Buffering }, none)
  | MatrixOp.endFrameOp =>
      if s.frame = FrameState.Idle then (s, none)
      else ({ s with frame := FrameState.Idle }, some (renderBuffer s))
  | MatrixOp.showOp =>
      if s.frame = FrameState.Buffering then (s, none)
      else ({ s with frame := FrameState.Idle }, some (renderBuffer s))

/-- Modelled from the spec: running a sequence of operations, collecting the
frames transmitted to the transport in order. -/
noncomputable def run :
    MatrixState → List MatrixOp → MatrixState × List (List Color)
  | s, [] => (s, [])
  | s, op :: rest =>
      let p := stepOp s op
      let q := run p.1 rest
      (q.1, p.2.toList ++ q.2)

/-- Applying a list of coordinate writes to the buffer. -/
def applyWrites (s : MatrixState) (ws : List (Int × Int × Color)) :
    MatrixState :=
  ws.foldl (fun t w => setPixel t w.1 w.2.1 w.2.2) s

/-- The operation list corresponding to a list of coordinate writes. -/
def writeOps (ws : List (Int × Int × Color)) : List MatrixOp :=
  ws.map (fun w => MatrixOp.setPixelOp w.1 w.2.1 w.2.2)

/-- Unfolding one step of `run`. -/
theorem run_cons (s : MatrixState) (op : MatrixOp) (rest : List MatrixOp) :
    run s (op :: rest)
      = ((run (stepOp s op).1 rest).1,
          (stepOp s op).2.toList ++ (run (stepOp s op).1 rest).2) := rfl

/-- `setPixel` commutes with overriding the frame state. -/
theorem setPixel_frame_comm (s : MatrixState) (f : FrameState) (x y : Int)
    (c : Color) :
    setPixel { s with frame := f } x y c
      = { setPixel s x y c with frame := f } := by
  obtain ⟨d, buf, br, g, o, f0⟩ := s
  unfold setPixel
  by_cases h : isValidCoord ⟨d, buf, br, g, o, f0⟩ x y
  · rw [if_pos h,
      if_pos (show isValidCoord ⟨d, buf, br, g, o, f⟩ x y from h)]
    rfl
  · rw [if_neg h,
      if_neg (show ¬ isValidCoord ⟨d, buf, br, g, o, f⟩ x y from h)]

/-- `applyWrites` commutes with overriding the frame state. -/
theorem applyWrites_frame_comm (ws : List (Int × Int × Color))
    (s : MatrixState) (f : FrameState) :
    applyWrites { s with frame := f } ws
      = { applyWrites s ws with frame := f } := by
  induction ws generalizing s with
  | nil => rfl
  | cons w rest ih =>
      show applyWrites (setPixel { s with frame := f } w.1 w.2.1 w.2.2) rest
          = { applyWrites (setPixel s w.1 w.2.1 w.2.2) rest with frame := f }
      rw [setPixel_frame_comm]
      exact ih _

/-- Running the operations of a write list performs the writes and transmits
nothing. -/
theorem run_writeOps (ws : List (Int × Int × Color)) (s : MatrixState)
    (rest : List MatrixOp) :
    run s (writeOps ws ++ rest) = run (applyWrites s ws) rest := by
  induction ws generalizing s with
  | nil => rfl
  | cons w tail ih =>
      show run s (MatrixOp.setPixelOp w.1 w.2.1 w.2.2
            :: (writeOps tail ++ rest))
          = run (applyWrites s (w :: tail)) rest
      rw [run_cons]
      show ((run (setPixel s w.1 w.2.1 w.2.2) (writeOps tail ++ rest)).1,
            [] ++ (run (setPixel s w.1 w.2.1 w.2.2) (writeOps tail ++ rest)).2)
          = run (applyWrites s (w :: tail)) rest
      rw [ih, List.nil_append]
      rfl

/-- Claim C5: from `Idle`, the bracket `startFrame(); N setPixel; endFrame()`
causes exactly one transmit, reflecting all `N` writes, and returns to
`Idle`; `startFrame()` while `Buffering` changes nothing, `endFrame()` while
`Idle` changes nothing, and `show()` while `Buffering` does not transmit. -/
theorem c5_frame_state_machine (s : MatrixState)
    (writes : List (Int × Int × Color)) (hf : s.frame = FrameState.Idle) :
    (run s (MatrixOp.startFrameOp
        :: (writeOps writes ++ [MatrixOp.endFrameOp]))).2
      = [renderBuffer (applyWrites s writes)] ∧
    (run s (MatrixOp.startFrameOp
        :: (writeOps writes ++ [MatrixOp.endFrameOp]))).1
      = { applyWrites s writes with frame := FrameState.Idle } ∧
    (∀ t : MatrixState, t.frame = FrameState.Buffering →
      stepOp t MatrixOp.startFrameOp = (t, none)) ∧
    (∀ t : MatrixState, t.frame = FrameState.Idle →
      stepOp t MatrixOp.endFrameOp = (t, none)) ∧
    (∀ t : MatrixState, t.frame = FrameState.Buffering →
      stepOp t MatrixOp.showOp = (t, none)) := by
  have h1 : stepOp s MatrixOp.startFrameOp
      = ({ s with frame := FrameState.Buffering }, none) := by
    simp only [stepOp]
    rw [if_neg (by rw [hf]; intro hcontra; cases hcontra)]
  have h2 : run { applyWrites s writes with frame := FrameState.Buffering }
        [MatrixOp.endFrameOp]
      = ({ applyWrites s writes with frame := FrameState.Idle },
          [renderBuffer (applyWrites s writes)]) := by
    rw [run_cons]
    have hstep : stepOp
          { applyWrites s writes with frame := FrameState.Buffering }
          MatrixOp.endFrameOp
        = ({ applyWrites s writes with frame := FrameState.Idle },
            some (renderBuffer (applyWrites s writes))) := by
      simp only [stepOp]
      rw [if_neg (by intro hcontra; cases hcontra)]
      rfl
    rw [hstep]
    rfl
  have hrun : run s (MatrixOp.startFrameOp
        :: (writeOps writes ++ [MatrixOp.endFrameOp]))
      = ({ applyWrites s writes with frame := FrameState.Idle },
          [renderBuffer (applyWrites s writes)]) := by
    rw [run_cons, h1]
    show ((run { s with frame := FrameState.Buffering }
            (writeOps writes ++ [MatrixOp.endFrameOp])).1,
          [] ++ (run { s with frame := FrameState.Buffering }
            (writeOps writes ++ [MatrixOp.endFrameOp])).2)
        = _
    rw [run_writeOps, applyWrites_frame_comm, h2, List.nil_append]
  refine ⟨?_, ?_, ?_, ?_, ?_⟩
  · rw [hrun]
  · rw [hrun]
  · intro t ht
    simp only [stepOp]
    rw [if_pos ht]
  · intro t ht
    simp only [stepOp]
    rw [if_pos ht]
  · intro t ht
    simp only [stepOp]
    rw [if_pos ht]

/-- Witness for C5: a one-write bracket on a concrete idle 2×3 matrix. -/
theorem c5_frame_state_machine_witness :
    (run
        ⟨MatrixDimensions.make 2 3, List.replicate 6 ⟨0, 0, 0⟩, 255, false,
          ColorOrder.RGB, FrameState.Idle⟩
        (MatrixOp.startFrameOp
          :: (writeOps [(0, 1, ⟨5, 6, 7⟩)] ++ [MatrixOp.endFrameOp]))).2
      = [renderBuffer
          (applyWrites
            ⟨MatrixDimensions.make 2 3, List.replicate 6 ⟨0, 0, 0⟩, 255,
              false, ColorOrder.RGB, FrameState.Idle⟩ [(0, 1, ⟨5, 6, 7⟩)])] ∧
    (run
        ⟨MatrixDimensions.make 2 3, List.replicate 6 ⟨0, 0, 0⟩, 255, false,
          ColorOrder.RGB, FrameState.Idle⟩
        (MatrixOp.startFrameOp
          :: (writeOps [(0, 1, ⟨5, 6, 7⟩)] ++ [MatrixOp.endFrameOp]))).1
      = { applyWrites
            ⟨MatrixDimensions.make 2 3, List.replicate 6 ⟨0, 0, 0⟩, 255,
              false, ColorOrder.RGB, FrameState.Idle⟩ [(0, 1, ⟨5, 6, 7⟩)]
          with frame := FrameState.Idle } ∧
    (∀ t : MatrixState, t.frame = FrameState.Buffering →
      stepOp t MatrixOp.startFrameOp = (t, none)) ∧
    (∀ t : MatrixState, t.frame = FrameState.Idle →
      stepOp t MatrixOp.endFrameOp = (t, none)) ∧
    (∀ t : MatrixState, t.frame = FrameState.Buffering →
      stepOp t MatrixOp.showOp = (t, none)) :=
  c5_frame_state_machine _ [(0, 1, ⟨5, 6, 7⟩)] rfl

end GitGlow
